import Mathlib

/-!
Verification of the MUK-BIOMEDSSA research-article backend.

The repository contains four near-identical Express servers; the primary
variant (src/unnamed/part_000) keeps all state in process memory and
periodically snapshots it to a remote blob ("Cloudinary") at the fixed
public id `muk-data/database`.  The other variants (src/Muk-backend/index.js)
swap the storage backend (MongoDB, flat JSON files, a second in-memory
copy) while keeping the handler logic.

This file is a shallow embedding of the store and its request handlers:
JavaScript arrays become Lean lists, JS objects with dynamic keys become
association lists over a small value type, and nondeterministic library
effects (the wall clock `Date.now()`, the network fetch, `JSON.parse`
success/failure) become explicit oracle arguments.  Each handler is a pure
function from its inputs and the current state to a response and the next
state, translated clause by clause from the source.
-/

namespace Muk

/-- A JSON scalar value, enough for the config object whose fields are
strings and one number (`font_size`). -/
inductive JVal where
  | s : String → JVal
  | n : Nat → JVal
deriving DecidableEq, Repr

/-- JS property read `obj[k]`: first binding of `k` in the association
list, `none` when the key is absent (JS `undefined`). -/
def objGet {α : Type} (k : String) : List (String × α) → Option α
  | [] => none
  | (k₁, v) :: rest => if k = k₁ then some v else objGet k rest

/-- JS property write `obj[k] = v`: replaces the first binding of `k`,
or appends a new binding when the key is absent. -/
def objSet {α : Type} (k : String) (v : α) : List (String × α) → List (String × α)
  | [] => [(k, v)]
  | (k₁, v₁) :: rest => if k₁ = k then (k, v) :: rest else (k₁, v₁) :: objSet k v rest

/-- JS object spread `{ ...a, ...b }`: `a`'s keys in order, taking `b`'s
value where `b` also binds the key, followed by `b`'s keys absent from
`a`.  (JS objects bind each key once, which the config literals satisfy.) -/
def spreadMerge {α : Type} (a b : List (String × α)) : List (String × α) :=
  a.map (fun kv => match objGet kv.1 b with
                   | some v => (kv.1, v)
                   | none => kv)
    ++ b.filter (fun kv => (objGet kv.1 a).isNone)

/-- JS `Array.prototype.find(p)`: first element satisfying `p`
(`undefined`, here `none`, when there is none). -/
def jsFind {α : Type} (p : α → Bool) : List α → Option α
  | [] => none
  | a :: rest => if p a then some a else jsFind p rest

/-- JS `Array.prototype.findIndex(p)`: index of the first element
satisfying `p`; the source's `-1` sentinel becomes `none`. -/
def jsFindIndex {α : Type} (p : α → Bool) : List α → Option Nat
  | [] => none
  | a :: rest => if p a then some 0 else (jsFindIndex p rest).map (· + 1)

/-- The mutable site configuration: a flat JS object. -/
def Config : Type := List (String × JVal)

instance : DecidableEq Config := by
  unfold Config
  infer_instance

instance : Repr Config := by
  unfold Config
  infer_instance

/-- The initial `config` literal (src/unnamed/part_000 lines 50-64). -/
def defaultConfig : Config :=
  [ ("app_title", .s "MUK-BIOMEDSSA"),
    ("app_subtitle", .s "Research App"),
    ("welcome_message", .s "Stay Updated with the Latest Biomedical Research Discoveries"),
    ("primary_color", .s "#0D7377"),
    ("secondary_color", .s "#f8fafc"),
    ("accent_color", .s "#16a34a"),
    ("text_color", .s "#1e293b"),
    ("about_description", .s "To provide biomedical science students with accessible, curated research content"),
    ("font_family", .s "Plus Jakarta Sans"),
    ("font_size", .n 16),
    ("contact_email", .s "biomedssa@muk.ac.zm"),
    ("contact_location", .s "Mukuba University, Kitwe"),
    ("contact_website", .s "") ]

/-- `POST /config` of the in-memory variants
(src/unnamed/part_000 line 372: `config = { ...config, ...req.body }`). -/
def postConfigMem (config body : Config) : Config :=
  spreadMerge config body

/-- `POST /config` of the JSON-file variant
(src/Muk-backend/index.js lines 784-788: `writeJSON(CONFIG_FILE, req.body)`,
the stored config becomes exactly the request body). -/
def postConfigFile (_config body : Config) : Config :=
  body

/-- An uploaded file as multer hands it to the handler: the fields the
handlers read (`originalname`, `url`, `path`).  `url` may be missing (JS
`undefined`), modelled as the falsy `""` since the source only tests it
with `req.file.url || req.file.path`. -/
structure PdfFile where
  originalname : String
  url : String
  path : String
deriving DecidableEq, Repr

/-- The article fields read out of `req.body`; a field absent from the
request is the falsy `""` (the validation `if (!title || !category)`
only distinguishes falsy from truthy). -/
structure ArticleBody where
  title : String
  category : String
  description : String
  authors : String
  institution : String
  publicationDate : String
deriving DecidableEq, Repr

/-- A stored article record (object literal at
src/unnamed/part_000 lines 287-299). -/
structure Article where
  id : Nat
  title : String
  category : String
  description : String
  authors : String
  institution : String
  publicationDate : String
  pdfName : String
  pdfUrl : String
  pdfFile : Bool
  createdAt : String
deriving DecidableEq, Repr

/-- An understanding-materials entry's file triple. -/
structure Material where
  name : String
  url : String
  size : Nat
deriving DecidableEq, Repr

/-- The per-article understanding entry: `{ summary, materials }`. -/
structure UEntry where
  summary : String
  materials : List Material
deriving DecidableEq, Repr

/-- A registered user record (src/unnamed/part_000 lines 175-181). -/
structure User where
  id : Nat
  name : String
  email : String
  password : String
  createdAt : String
deriving DecidableEq, Repr

/-- A push subscription: `{ endpoint, keys }` with the `keys` blob kept
opaque. -/
structure PushSub where
  endpoint : String
  keys : String
deriving DecidableEq, Repr

/-- The in-memory store: the module-level `let` bindings of
src/unnamed/part_000 lines 48-66. `understanding` is a JS object keyed
by the route's `articleId` string. -/
structure State where
  users : List User
  articles : List Article
  config : Config
  understanding : List (String × UEntry)
  pushSubscriptions : List PushSub
deriving DecidableEq, Repr

/-- The state at process start, before any request or hydration. -/
def initState : State :=
  { users := []
    articles := []
    config := defaultConfig
    understanding := []
    pushSubscriptions := [] }

/-- Outcome of `POST /articles`. -/
inductive PostArticleResult where
  | badRequest : PostArticleResult
  | created : Article → PostArticleResult
deriving DecidableEq, Repr

/-- Outcome of `PUT /articles/:id`. -/
inductive PutArticleResult where
  | notFound : PutArticleResult
  | updated : Article → PutArticleResult
deriving DecidableEq, Repr

/-- The article object built by `POST /articles`, with the id drawn from
the `Date.now()` oracle `now` and `createdAt` from the clock. -/
def mkArticle (now : Nat) (createdAt : String) (b : ArticleBody)
    (file : Option PdfFile) : Article :=
  { id := now
    title := b.title
    category := b.category
    description := b.description
    authors := b.authors
    institution := b.institution
    publicationDate := b.publicationDate
    pdfName := match file with
               | some f => f.originalname
               | none => ""
    pdfUrl := match file with
              | some f => if f.url = "" then f.path else f.url
              | none => ""
    pdfFile := file.isSome
    createdAt := createdAt }

/-- `POST /articles` (src/unnamed/part_000 lines 276-312): reject when
`title` or `category` is falsy, otherwise append the new article. -/
def postArticles (now : Nat) (createdAt : String) (b : ArticleBody)
    (file : Option PdfFile) (st : State) : PostArticleResult × State :=
  if b.title = "" ∨ b.category = "" then
    (.badRequest, st)
  else
    let a := mkArticle now createdAt b file
    (.created a, { st with articles := st.articles ++ [a] })

/-- `GET /articles/:id` (src/unnamed/part_000 lines 268-274):
`articles.find(a => a.id == req.params.id)`; the route parameter string
compares numerically under JS loose equality, so it is modelled as a
`Nat`. -/
def getArticleById (id : Nat) (st : State) : Option Article :=
  jsFind (fun a => a.id == id) st.articles

/-- The updated article object of `PUT /articles/:id`: spread of the old
record, every body field overwritten, pdf fields overwritten only when a
file was uploaded; `id` and `createdAt` are not in the update literal and
survive from the old record. -/
def updateArticle (old : Article) (b : ArticleBody) (file : Option PdfFile) : Article :=
  { old with
    title := b.title
    category := b.category
    description := b.description
    authors := b.authors
    institution := b.institution
    publicationDate := b.publicationDate
    pdfName := match file with
               | some f => f.originalname
               | none => old.pdfName
    pdfUrl := match file with
              | some f => if f.url = "" then f.path else f.url
              | none => old.pdfUrl
    pdfFile := match file with
               | some _ => true
               | none => old.pdfFile }

/-- `PUT /articles/:id` (src/unnamed/part_000 lines 314-344): findIndex,
404 when absent, otherwise overwrite in place.  (`jsFindIndex` only
returns in-range indices, so the `get?` fallback arm is unreachable.) -/
def putArticles (id : Nat) (b : ArticleBody) (file : Option PdfFile)
    (st : State) : PutArticleResult × State :=
  match jsFindIndex (fun a => a.id == id) st.articles with
  | none => (.notFound, st)
  | some i =>
    match st.articles.get? i with
    | none => (.notFound, st)
    | some old =>
      let a := updateArticle old b file
      (.updated a, { st with articles := st.articles.set i a })

/-- `DELETE /articles/:id` (src/unnamed/part_000 lines 346-361):
findIndex, 404 when absent, otherwise `splice(index, 1)`; the `Bool`
reports whether anything was removed (`false` is the 404 response). -/
def deleteArticles (id : Nat) (st : State) : Bool × State :=
  match jsFindIndex (fun a => a.id == id) st.articles with
  | none => (false, st)
  | some i => (true, { st with articles := st.articles.eraseIdx i })

/-- One `POST /articles` request together with its `Date.now()` and
`toISOString()` oracle values. -/
structure InsertReq where
  now : Nat
  createdAt : String
  body : ArticleBody
  file : Option PdfFile
deriving DecidableEq, Repr

/-- A sequence of `POST /articles` requests run back to back against the
store, returning the final state and the ids assigned to the successful
inserts in order. -/
def runInserts : List InsertReq → State → State × List Nat
  | [], st => (st, [])
  | r :: rest, st =>
    match postArticles r.now r.createdAt r.body r.file st with
    | (.badRequest, st₁) => runInserts rest st₁
    | (.created a, st₁) =>
      let p := runInserts rest st₁
      (p.1, a.id :: p.2)

/-- The ids `runInserts` assigns, read off the request list alone: the
`Date.now()` value of every request that passes validation. -/
def assignedIds (reqs : List InsertReq) : List Nat :=
  reqs.filterMap (fun r =>
    if r.body.title = "" ∨ r.body.category = "" then none else some r.now)

/-- The persisted snapshot: the one structured document
`{ users, articles, config, understanding, lastUpdated }` that
`saveDataToCloudinary` uploads to the fixed public id `muk-data/database`
(src/unnamed/part_000 lines 103-109).  A field is `none` when the stored
document lacks the key (JS `undefined`); a flush always writes all of
them. -/
structure Snapshot where
  users : Option (List User)
  articles : Option (List Article)
  config : Option Config
  understanding : Option (List (String × UEntry))
  lastUpdated : String
deriving DecidableEq, Repr

/-- `saveDataToCloudinary` (src/unnamed/part_000 lines 101-135):
serializes every collection plus a timestamp into one document and
uploads it with `overwrite: true, invalidate: true` to the single
well-known public id; the prior content of that location plays no part.
(`JSON.stringify` of these well-typed collections is lossless, so the
document is modelled structured rather than as raw text.) -/
def saveDataToCloudinary (nowIso : String) (st : State)
    (_prior : Option Snapshot) : Option Snapshot :=
  some { users := some st.users
         articles := some st.articles
         config := some st.config
         understanding := some st.understanding
         lastUpdated := nowIso }

/-- Outcome of `loadDataFromCloudinary`: the success log, or the caught
exception's "No existing data found, starting fresh". -/
inductive LoadResult where
  | loaded : LoadResult
  | noPrior : LoadResult
deriving DecidableEq, Repr

/-- `loadDataFromCloudinary` (src/unnamed/part_000 lines 73-98).  The
fetch/parse pipeline is the oracle argument: `none` models
`cloudinary.api.resource` or the download throwing (object missing,
network error), `some none` models `JSON.parse` throwing on the payload,
and `some (some d)` is the parsed document.  Every failure is caught
before any collection is assigned, so the state is untouched; on success
each collection is wholesale-replaced, with the source's
`data.users || []`-style fallbacks for absent keys (`config` falls back
to its current value). -/
def loadDataFromCloudinary (fetched : Option (Option Snapshot)) (st : State) :
    State × LoadResult :=
  match fetched with
  | none => (st, .noPrior)
  | some none => (st, .noPrior)
  | some (some d) =>
    ({ st with
       users := d.users.getD []
       articles := d.articles.getD []
       config := d.config.getD st.config
       understanding := d.understanding.getD [] }, .loaded)

/-- An uploaded understanding-material file as multer provides it. -/
structure UploadFile where
  originalname : String
  path : String
  size : Nat
deriving DecidableEq, Repr

/-- `POST /understanding/:articleId` (src/unnamed/part_000 lines
393-414): maps the uploaded files to `{name, url, size}` triples and
assigns a fresh `{ summary, materials }` object to the article's key,
discarding the previous entry for that key wholesale; responds with the
stored entry. -/
def postUnderstanding (articleId : String) (summary : Option String)
    (files : List UploadFile) (st : State) : State × UEntry :=
  let materials := files.map (fun f => Material.mk f.originalname f.path f.size)
  let entry : UEntry := { summary := summary.getD "", materials := materials }
  ({ st with understanding := objSet articleId entry st.understanding }, entry)

/-- The `const { password: _, ...userWithoutPassword } = user` rest
spread: the user object's own fields in declaration order with
`password` removed, as the response serializes it. -/
def userWithoutPassword (u : User) : List (String × JVal) :=
  [("id", .n u.id), ("name", .s u.name), ("email", .s u.email),
   ("createdAt", .s u.createdAt)]

/-- Outcome of `POST /auth/register`. -/
inductive AuthResult where
  | badRequest : String → AuthResult
  | okUser : List (String × JVal) → AuthResult
deriving DecidableEq, Repr

/-- `POST /auth/register` (src/unnamed/part_000 lines 159-195): validate
presence and password length, reject duplicate emails, append the new
user, respond with the password-stripped record. -/
def postAuthRegister (now : Nat) (createdAt : String)
    (name email pw : String) (st : State) : AuthResult × State :=
  if name = "" ∨ email = "" ∨ pw = "" then
    (.badRequest "Please fill in all fields", st)
  else if pw.length < 6 then
    (.badRequest "Password must be at least 6 characters", st)
  else if (jsFind (fun u => u.email == email) st.users).isSome then
    (.badRequest "Email already registered", st)
  else
    let newUser : User := ⟨now, name, email, pw, createdAt⟩
    (.okUser (userWithoutPassword newUser), { st with users := st.users ++ [newUser] })

/-- Outcome of `POST /auth/login`. -/
inductive LoginResult where
  | badRequest : LoginResult
  | unauthorized : LoginResult
  | okUser : List (String × JVal) → LoginResult
deriving DecidableEq, Repr

/-- `POST /auth/login` (src/unnamed/part_000 lines 197-220): find the
user by email and password and respond with the password-stripped
record, 401 when no match. -/
def postAuthLogin (email pw : String) (st : State) : LoginResult :=
  if email = "" ∨ pw = "" then .badRequest
  else
    match jsFind (fun u => u.email == email && u.password == pw) st.users with
    | none => .unauthorized
    | some u => .okUser (userWithoutPassword u)

/-- `GET /users` (src/unnamed/part_000 lines 227-238): the user list
mapped through the password-stripping spread. -/
def getUsers (st : State) : List (List (String × JVal)) :=
  st.users.map userWithoutPassword

/-- `POST /push/subscribe` (src/unnamed/part_000 lines 419-431): append
the subscription only when no stored subscription has the endpoint; the
response is the same success message either way. -/
def postPushSubscribe (endpoint keys : String) (st : State) : String × State :=
  ("Subscribed successfully",
   if (jsFind (fun s => s.endpoint == endpoint) st.pushSubscriptions).isSome then st
   else { st with pushSubscriptions := st.pushSubscriptions ++ [⟨endpoint, keys⟩] })

/-! ### Association-list and array-helper lemmas -/

theorem objGet_append {α : Type} (k : String) (xs ys : List (String × α)) :
    objGet k (xs ++ ys) =
      match objGet k xs with
      | some v => some v
      | none => objGet k ys := by
  induction xs with
  | nil => simp [objGet]
  | cons kv rest ih =>
    obtain ⟨k₁, v⟩ := kv
    by_cases h : k = k₁ <;> simp [objGet, h, ih]

theorem objGet_filter_none {α : Type} (k : String) (q : String × α → Bool)
    (l : List (String × α)) (h : objGet k l = none) :
    objGet k (l.filter q) = none := by
  induction l with
  | nil => simp [objGet]
  | cons kv rest ih =>
    obtain ⟨k₁, v⟩ := kv
    by_cases hk : k = k₁
    · simp [objGet, hk] at h
    · simp [objGet, hk] at h
      by_cases hq : q (k₁, v) <;> simp [List.filter, hq, objGet, hk, ih h]

theorem objGet_spreadMerge_of_absent {α : Type} (a b : List (String × α))
    (k : String) (hb : objGet k b = none) :
    objGet k (spreadMerge a b) = objGet k a := by
  unfold spreadMerge
  rw [objGet_append]
  have hmap : objGet k (a.map (fun kv => match objGet kv.1 b with
      | some v => (kv.1, v)
      | none => kv)) = objGet k a := by
    induction a with
    | nil => simp [objGet]
    | cons kv rest ih =>
      obtain ⟨k₁, v⟩ := kv
      by_cases h : k = k₁
      · subst h
        simp [objGet, hb]
      · cases hget : objGet k₁ b <;> simp [objGet, h, ih, hget]
  rw [hmap]
  cases hga : objGet k a with
  | some v => rfl
  | none => simpa using objGet_filter_none k _ b hb

theorem objGet_objSet_self {α : Type} (k : String) (v : α)
    (m : List (String × α)) : objGet k (objSet k v m) = some v := by
  induction m with
  | nil => simp [objSet, objGet]
  | cons kv rest ih =>
    obtain ⟨k₁, v₁⟩ := kv
    by_cases h : k₁ = k
    · subst h
      simp [objSet, objGet]
    · have hne : k ≠ k₁ := fun he => h he.symm
      simp [objSet, objGet, h, hne, ih]

theorem jsFind_eq_none {α : Type} (p : α → Bool) (l : List α)
    (h : ∀ a ∈ l, p a = false) : jsFind p l = none := by
  induction l with
  | nil => rfl
  | cons a rest ih =>
    have ha := h a (List.mem_cons_self a rest)
    simp [jsFind, ha]
    exact ih fun x hx => h x (List.mem_cons_of_mem a hx)

theorem jsFind_append_right {α : Type} (p : α → Bool) (l l₂ : List α)
    (h : ∀ a ∈ l, p a = false) : jsFind p (l ++ l₂) = jsFind p l₂ := by
  induction l with
  | nil => rfl
  | cons a rest ih =>
    have ha := h a (List.mem_cons_self a rest)
    simp [jsFind, ha]
    exact ih fun x hx => h x (List.mem_cons_of_mem a hx)

theorem jsFind_isSome_of_mem {α : Type} (p : α → Bool) (l : List α) (a : α)
    (ha : a ∈ l) (hp : p a) : (jsFind p l).isSome := by
  induction l with
  | nil => cases ha
  | cons x rest ih =>
    by_cases hx : p x
    · simp [jsFind, hx]
    · rcases List.mem_cons.mp ha with h | h
      · subst h
        exact absurd hp (by simpa using hx)
      · simp only [jsFind, hx]
        simpa [hx] using ih h

theorem jsFindIndex_eq_none {α : Type} (p : α → Bool) (l : List α)
    (h : ∀ a ∈ l, p a = false) : jsFindIndex p l = none := by
  induction l with
  | nil => rfl
  | cons a rest ih =>
    have ha := h a (List.mem_cons_self a rest)
    simp [jsFindIndex, ha]
    exact ih fun x hx => h x (List.mem_cons_of_mem a hx)

theorem forall_of_jsFindIndex_eq_none {α : Type} (p : α → Bool) (l : List α)
    (h : jsFindIndex p l = none) : ∀ a ∈ l, p a = false := by
  induction l with
  | nil => intro a ha; cases ha
  | cons a rest ih =>
    by_cases hp : p a
    · simp [jsFindIndex, hp] at h
    · intro x hx
      rcases List.mem_cons.mp hx with hx | hx
      · subst hx; simpa using hp
      · refine ih ?_ x hx
        simp [jsFindIndex, hp] at h
        simpa using h

theorem eraseIdx_no_match_of_nodup (l : List Article) (id : Nat)
    (hnd : (l.map Article.id).Nodup) (i : Nat)
    (hfi : jsFindIndex (fun a => a.id == id) l = some i) :
    ∀ a ∈ l.eraseIdx i, (a.id == id) = false := by
  induction l generalizing i with
  | nil => cases hfi
  | cons a rest ih =>
    by_cases hp : a.id == id
    · have h0 : i = 0 := by
        simp [jsFindIndex, hp] at hfi
        omega
      subst h0
      have haid : a.id = id := by simpa using hp
      have hnotin : a.id ∉ rest.map Article.id := (List.nodup_cons.mp hnd).1
      intro x hx
      simp only [List.eraseIdx] at hx
      have : x.id ∈ rest.map Article.id := List.mem_map_of_mem Article.id hx
      have hne : x.id ≠ id := by
        intro hcontra
        exact hnotin (haid ▸ hcontra ▸ this)
      simpa [beq_eq_false_iff_ne] using hne
    · have hfi' : (jsFindIndex (fun a => a.id == id) rest).map (· + 1) = some i := by
        simpa [jsFindIndex, hp] using hfi
      obtain ⟨j, hj, hij⟩ := Option.map_eq_some'.mp hfi'
      subst hij
      intro x hx
      simp only [List.eraseIdx] at hx
      rcases List.mem_cons.mp hx with hx | hx
      · subst hx; simpa using hp
      · exact ih (List.nodup_cons.mp hnd).2 j hj x hx

theorem runInserts_snd_eq_assignedIds (reqs : List InsertReq) (st : State) :
    (runInserts reqs st).2 = assignedIds reqs := by
  induction reqs generalizing st with
  | nil => rfl
  | cons r rest ih =>
    by_cases h : r.body.title = "" ∨ r.body.category = ""
    · simp [runInserts, postArticles, h, assignedIds, List.filterMap_cons, ih]
    · simp [runInserts, postArticles, h, assignedIds, List.filterMap_cons, ih, mkArticle]

theorem runInserts_length (reqs : List InsertReq) (st : State) :
    (runInserts reqs st).1.articles.length
      = st.articles.length + (runInserts reqs st).2.length := by
  induction reqs generalizing st with
  | nil => simp [runInserts]
  | cons r rest ih =>
    by_cases h : r.body.title = "" ∨ r.body.category = ""
    · simp [runInserts, postArticles, h, ih]
    · have hpa : postArticles r.now r.createdAt r.body r.file st
          = (.created (mkArticle r.now r.createdAt r.body r.file),
             { st with articles := st.articles ++ [mkArticle r.now r.createdAt r.body r.file] }) := by
        simp [postArticles, h]
      have hstep : runInserts (r :: rest) st
          = ((runInserts rest
                { st with articles := st.articles ++ [mkArticle r.now r.createdAt r.body r.file] }).1,
             r.now ::
               (runInserts rest
                 { st with articles := st.articles ++ [mkArticle r.now r.createdAt r.body r.file] }).2) := by
        rw [show runInserts (r :: rest) st
              = (match postArticles r.now r.createdAt r.body r.file st with
                 | (.badRequest, st₁) => runInserts rest st₁
                 | (.created a, st₁) =>
                   ((runInserts rest st₁).1, a.id :: (runInserts rest st₁).2)) from rfl,
            hpa]
        rfl
      rw [hstep, ih]
      simp
      omega

theorem mem_assignedIds (reqs : List InsertReq) (x : Nat)
    (hx : x ∈ assignedIds reqs) : x ∈ reqs.map InsertReq.now := by
  obtain ⟨r, hr, hfr⟩ := List.mem_filterMap.mp hx
  by_cases h : r.body.title = "" ∨ r.body.category = ""
  · simp [h] at hfr
  · simp [h] at hfr
    exact hfr ▸ List.mem_map_of_mem InsertReq.now hr

theorem assignedIds_nodup (reqs : List InsertReq)
    (hnd : (reqs.map InsertReq.now).Nodup) : (assignedIds reqs).Nodup := by
  induction reqs with
  | nil => simp [assignedIds]
  | cons r rest ih =>
    rw [List.map_cons] at hnd
    obtain ⟨hnotin, hrest⟩ := List.nodup_cons.mp hnd
    by_cases h : r.body.title = "" ∨ r.body.category = ""
    · simpa [assignedIds, List.filterMap_cons, h] using ih hrest
    · rw [assignedIds, List.filterMap_cons]
      simp only [h, if_neg h]
      refine List.nodup_cons.mpr ⟨fun hc => hnotin (mem_assignedIds rest r.now hc), ih hrest⟩

/-! ### C1: flush/hydrate round trip -/

/-- C1: a flush followed by a hydrate on a fresh store reproduces every
collection named in the snapshot document — `users`, `articles`,
`config`, `understanding` — exactly as they were at the flush; and the
flush writes the one structured document to the single well-known
location irrespective of (fully overwriting) whatever snapshot was
stored there before. -/
theorem flush_then_hydrate_roundtrip (st : State) (nowIso : String)
    (prior prior₂ : Option Snapshot) :
    (loadDataFromCloudinary (some (saveDataToCloudinary nowIso st prior)) initState).1.users
        = st.users
    ∧ (loadDataFromCloudinary (some (saveDataToCloudinary nowIso st prior)) initState).1.articles
        = st.articles
    ∧ (loadDataFromCloudinary (some (saveDataToCloudinary nowIso st prior)) initState).1.config
        = st.config
    ∧ (loadDataFromCloudinary (some (saveDataToCloudinary nowIso st prior)) initState).1.understanding
        = st.understanding
    ∧ (loadDataFromCloudinary (some (saveDataToCloudinary nowIso st prior)) initState).2
        = .loaded
    ∧ saveDataToCloudinary nowIso st prior = saveDataToCloudinary nowIso st prior₂ :=
  ⟨rfl, rfl, rfl, rfl, rfl, rfl⟩

/-! ### C2: config update semantics -/

/-- C2 (counterexample): the claim "every config key not present in the
payload retains its prior value" fails on the JSON-file variant of
`POST /config`, which overwrites the stored config with the request body.
Concretely, updating with the single-key payload `{font_size: 18}` drops
`app_title`, which the prior (default) config bound. -/
theorem postConfigFile_drops_unsupplied_key :
    objGet "app_title" (postConfigFile defaultConfig [("font_size", .n 18)]) = none
    ∧ objGet "app_title" defaultConfig = some (.s "MUK-BIOMEDSSA") := by
  constructor <;> rfl

/-- C2 (amended): the in-memory variants merge on update — every config
key not bound by the payload keeps its prior value — while the JSON-file
variant replaces the whole stored config with the payload. -/
theorem postConfig_update_semantics (config body : Config) (k : String)
    (h : objGet k body = none) :
    objGet k (postConfigMem config body) = objGet k config
    ∧ postConfigFile config body = body :=
  ⟨objGet_spreadMerge_of_absent config body k h, rfl⟩

/-- C2 witness: merging `{font_size: 18}` into the default config leaves
`app_title` at its prior value. -/
theorem postConfig_update_semantics_witness :
    objGet "app_title" (postConfigMem defaultConfig [("font_size", .n 18)])
      = objGet "app_title" defaultConfig :=
  (postConfig_update_semantics defaultConfig [("font_size", .n 18)] "app_title" rfl).1

/-! ### C3: delete then getById; idempotence of delete -/

/-- C3 (counterexample): in the reachable duplicate-id state produced by
two same-millisecond `Date.now()` inserts (both articles have id 5),
`DELETE /articles/5` splices out only the first match, so the following
`GET /articles/5` returns the surviving duplicate — not "not found" —
and a second delete of id 5 removes that survivor rather than reporting
that nothing was removed.  This refutes the claim as stated for
arbitrary ids over arbitrary store states. -/
theorem delete_then_getById_duplicate_ids :
    getArticleById 5
        (deleteArticles 5
          { initState with
            articles := [mkArticle 5 "t" ⟨"A", "C", "", "", "", ""⟩ none,
                         mkArticle 5 "t" ⟨"B", "C", "", "", "", ""⟩ none] }).2
      = some (mkArticle 5 "t" ⟨"B", "C", "", "", "", ""⟩ none)
    ∧ getArticleById 5
        (deleteArticles 5
          { initState with
            articles := [mkArticle 5 "t" ⟨"A", "C", "", "", "", ""⟩ none,
                         mkArticle 5 "t" ⟨"B", "C", "", "", "", ""⟩ none] }).2
      ≠ none
    ∧ (deleteArticles 5
        (deleteArticles 5
          { initState with
            articles := [mkArticle 5 "t" ⟨"A", "C", "", "", "", ""⟩ none,
                         mkArticle 5 "t" ⟨"B", "C", "", "", "", ""⟩ none] }).2).1
      = true :=
  ⟨rfl, by decide, rfl⟩

/-- C3 (amended): when the stored article ids are pairwise distinct —
no same-millisecond `Date.now()` collision has occurred —
`DELETE /articles/:id` followed by `GET /articles/:id` on the same id
returns "not found", and a second delete of the same id reports that
nothing was removed (the 404 branch) while leaving the state unchanged —
it does not reach the error path.  With duplicate ids, delete removes
only the first match and the claim fails as the counterexample shows. -/
theorem delete_then_getById_and_idempotent (st : State) (id : Nat)
    (hnd : (st.articles.map Article.id).Nodup) :
    getArticleById id (deleteArticles id st).2 = none
    ∧ deleteArticles id (deleteArticles id st).2
        = (false, (deleteArticles id st).2) := by
  cases hfi : jsFindIndex (fun a => a.id == id) st.articles with
  | none =>
    have hall := forall_of_jsFindIndex_eq_none _ _ hfi
    have hdel : deleteArticles id st = (false, st) := by
      simp [deleteArticles, hfi]
    rw [hdel]
    exact ⟨jsFind_eq_none _ _ hall, by simp [deleteArticles, hfi]⟩
  | some i =>
    have hdel : (deleteArticles id st).2 = { st with articles := st.articles.eraseIdx i } := by
      simp [deleteArticles, hfi]
    have hall : ∀ a ∈ st.articles.eraseIdx i, (fun a => a.id == id) a = false :=
      eraseIdx_no_match_of_nodup st.articles id hnd i hfi
    have hfi₂ : jsFindIndex (fun a => a.id == id) (st.articles.eraseIdx i) = none :=
      jsFindIndex_eq_none _ _ hall
    rw [hdel]
    refine ⟨jsFind_eq_none _ _ hall, ?_⟩
    simp [deleteArticles, hfi₂]

/-- C3 witness: with one stored article of id 1, delete 1 then get 1 is
"not found" and a second delete of 1 removes nothing. -/
theorem delete_then_getById_and_idempotent_witness :
    getArticleById 1
        (deleteArticles 1
          { initState with articles := [mkArticle 1 "t" ⟨"A", "C", "", "", "", ""⟩ none] }).2 = none
    ∧ deleteArticles 1
          (deleteArticles 1
            { initState with articles := [mkArticle 1 "t" ⟨"A", "C", "", "", "", ""⟩ none] }).2
        = (false,
           (deleteArticles 1
             { initState with articles := [mkArticle 1 "t" ⟨"A", "C", "", "", "", ""⟩ none] }).2) :=
  delete_then_getById_and_idempotent
    { initState with articles := [mkArticle 1 "t" ⟨"A", "C", "", "", "", ""⟩ none] }
    1 (by decide)

/-! ### C4: insert then getById -/

/-- C4 (counterexample): when the `Date.now()` id assigned to a new
insert collides with the id of an already-stored article (a reachable
same-millisecond state), the insert succeeds and appends, but
`GET /articles/:id` with the assigned id 5 returns the pre-existing
first match (title "OLD"), not the record just inserted (title "NEW") —
refuting the claim as stated over arbitrary store states. -/
theorem insert_then_getById_collision :
    (postArticles 5 "t" ⟨"NEW", "C", "", "", "", ""⟩ none
        { initState with
          articles := [mkArticle 5 "t" ⟨"OLD", "C", "", "", "", ""⟩ none] }).1
      = .created (mkArticle 5 "t" ⟨"NEW", "C", "", "", "", ""⟩ none)
    ∧ getArticleById 5
        (postArticles 5 "t" ⟨"NEW", "C", "", "", "", ""⟩ none
          { initState with
            articles := [mkArticle 5 "t" ⟨"OLD", "C", "", "", "", ""⟩ none] }).2
      = some (mkArticle 5 "t" ⟨"OLD", "C", "", "", "", ""⟩ none)
    ∧ mkArticle 5 "t" ⟨"OLD", "C", "", "", "", ""⟩ none
        ≠ mkArticle 5 "t" ⟨"NEW", "C", "", "", "", ""⟩ none :=
  ⟨rfl, rfl, by decide⟩

/-- C4 (amended): a valid `POST /articles` whose assigned `Date.now()`
id does not collide with an already-stored article's id appends the new
article, and `GET /articles/:id` with the assigned id returns exactly
that record: the body's fields unchanged and the id the one assigned by
the store.  Under a same-millisecond collision, getById instead returns
the pre-existing first match, as the counterexample shows. -/
theorem insert_then_getById (st : State) (now : Nat) (c : String)
    (b : ArticleBody) (file : Option PdfFile)
    (hv : ¬(b.title = "" ∨ b.category = ""))
    (hfresh : ∀ a ∈ st.articles, a.id ≠ now) :
    ∃ a st₂, postArticles now c b file st = (.created a, st₂)
      ∧ getArticleById now st₂ = some a
      ∧ a.id = now ∧ a.title = b.title ∧ a.category = b.category
      ∧ a.description = b.description ∧ a.authors = b.authors
      ∧ a.institution = b.institution ∧ a.publicationDate = b.publicationDate := by
  refine ⟨mkArticle now c b file,
    { st with articles := st.articles ++ [mkArticle now c b file] }, ?_, ?_,
    rfl, rfl, rfl, rfl, rfl, rfl, rfl⟩
  · simp [postArticles, hv]
  · unfold getArticleById
    rw [show ({ st with articles := st.articles ++ [mkArticle now c b file] } : State).articles
          = st.articles ++ [mkArticle now c b file] from rfl]
    rw [jsFind_append_right]
    · simp [jsFind, mkArticle]
    · intro a ha
      simpa [beq_eq_false_iff_ne] using hfresh a ha

/-- C4 witness: inserting `{title: "A", category: "C"}` into the fresh
store at timestamp 1 and reading id 1 back. -/
theorem insert_then_getById_witness :
    ∃ a st₂,
      postArticles 1 "t" ⟨"A", "C", "", "", "", ""⟩ none initState = (.created a, st₂)
      ∧ getArticleById 1 st₂ = some a
      ∧ a.id = 1 ∧ a.title = "A" ∧ a.category = "C"
      ∧ a.description = "" ∧ a.authors = ""
      ∧ a.institution = "" ∧ a.publicationDate = "" :=
  insert_then_getById initState 1 "t" ⟨"A", "C", "", "", "", ""⟩ none
    (by decide) (by intro a ha; cases ha)

/-! ### C5: update of a nonexistent id -/

/-- C5: `PUT /articles/:id` with an id bound by no article responds
404 "not found" and leaves the state (in particular the article count)
unchanged. -/
theorem putArticles_nonexistent (st : State) (id : Nat) (b : ArticleBody)
    (file : Option PdfFile) (h : ∀ a ∈ st.articles, a.id ≠ id) :
    putArticles id b file st = (.notFound, st)
    ∧ (putArticles id b file st).2.articles.length = st.articles.length := by
  have hidx : jsFindIndex (fun a => a.id == id) st.articles = none :=
    jsFindIndex_eq_none _ _ (fun a ha => by simpa [beq_eq_false_iff_ne] using h a ha)
  constructor
  · simp [putArticles, hidx]
  · simp [putArticles, hidx]

/-- C5 witness: updating id 7 in a store holding only the article with
id 1 is a 404 and changes nothing. -/
theorem putArticles_nonexistent_witness :
    putArticles 7 ⟨"B", "D", "", "", "", ""⟩ none
        { initState with articles := [mkArticle 1 "t" ⟨"A", "C", "", "", "", ""⟩ none] }
      = (.notFound, { initState with articles := [mkArticle 1 "t" ⟨"A", "C", "", "", "", ""⟩ none] }) :=
  (putArticles_nonexistent
    { initState with articles := [mkArticle 1 "t" ⟨"A", "C", "", "", "", ""⟩ none] }
    7 ⟨"B", "D", "", "", "", ""⟩ none (by decide)).1

/-! ### C6: hydrate failure -/

/-- C6: when the remote snapshot object does not exist (the resource
lookup or download throws) or its payload cannot be parsed
(`JSON.parse` throws), the exception is caught before any collection is
assigned: the store keeps every collection exactly as initialized —
none partially replaced — and the outcome is the distinguished
non-fatal "no prior snapshot" result (the source logs "No existing data
found, starting fresh" and continues startup). -/
theorem hydrate_failure_leaves_defaults (fetched : Option (Option Snapshot))
    (st : State) (h : fetched = none ∨ fetched = some none) :
    loadDataFromCloudinary fetched st = (st, .noPrior) := by
  rcases h with h | h <;> rw [h] <;> rfl

/-- C6 witness: a missing remote object leaves the fresh store at its
initialized defaults with the "no prior snapshot" outcome. -/
theorem hydrate_failure_leaves_defaults_witness :
    loadDataFromCloudinary none initState = (initState, .noPrior) :=
  hydrate_failure_leaves_defaults none initState (Or.inl rfl)

/-! ### C7: sequences of inserts -/

/-- C7 (counterexample): two inserts whose `Date.now()` oracle returns
the same millisecond both succeed but are assigned the same id — the
assigned ids `[5, 5]` are not unique, refuting the claim for arbitrary
insert sequences. -/
theorem runInserts_same_timestamp_duplicate_ids :
    (runInserts [⟨5, "t", ⟨"A", "C", "", "", "", ""⟩, none⟩,
                 ⟨5, "t", ⟨"B", "C", "", "", "", ""⟩, none⟩] initState).2 = [5, 5]
    ∧ ¬ (runInserts [⟨5, "t", ⟨"A", "C", "", "", "", ""⟩, none⟩,
                     ⟨5, "t", ⟨"B", "C", "", "", "", ""⟩, none⟩] initState).2.Nodup := by
  have h52 : (runInserts [⟨5, "t", ⟨"A", "C", "", "", "", ""⟩, none⟩,
                          ⟨5, "t", ⟨"B", "C", "", "", "", ""⟩, none⟩] initState).2 = [5, 5] := rfl
  refine ⟨h52, ?_⟩
  rw [h52]
  decide

/-- C7 (amended): when the `Date.now()` values of the requests are
pairwise distinct (the source's "monotonically-increasing-enough"
assumption), every successful insert is assigned a unique id; and for
every request sequence and prior state whatsoever — duplicate
timestamps included — the final collection size equals the prior size
plus the number of successful inserts: no insert overwrites or loses
another. -/
theorem runInserts_unique_ids_and_count (reqs : List InsertReq) (st : State)
    (hnd : (reqs.map InsertReq.now).Nodup) :
    (runInserts reqs st).2.Nodup
    ∧ ∀ (reqs₂ : List InsertReq) (st₂ : State),
        (runInserts reqs₂ st₂).1.articles.length
          = st₂.articles.length + (runInserts reqs₂ st₂).2.length := by
  refine ⟨?_, fun reqs₂ st₂ => runInserts_length reqs₂ st₂⟩
  rw [runInserts_snd_eq_assignedIds]
  exact assignedIds_nodup reqs hnd

/-- C7 witness: two valid inserts at timestamps 1 and 2 get distinct
ids, and the size law instantiated at the duplicate-timestamp sequence
from the counterexample still holds: the empty store grows by exactly
its two successful inserts. -/
theorem runInserts_unique_ids_and_count_witness :
    (runInserts [⟨1, "t", ⟨"A", "C", "", "", "", ""⟩, none⟩,
                 ⟨2, "t", ⟨"B", "C", "", "", "", ""⟩, none⟩] initState).2.Nodup
    ∧ (runInserts [⟨5, "t", ⟨"A", "C", "", "", "", ""⟩, none⟩,
                   ⟨5, "t", ⟨"B", "C", "", "", "", ""⟩, none⟩] initState).1.articles.length
        = initState.articles.length
          + (runInserts [⟨5, "t", ⟨"A", "C", "", "", "", ""⟩, none⟩,
                         ⟨5, "t", ⟨"B", "C", "", "", "", ""⟩, none⟩] initState).2.length :=
  ⟨(runInserts_unique_ids_and_count
      [⟨1, "t", ⟨"A", "C", "", "", "", ""⟩, none⟩,
       ⟨2, "t", ⟨"B", "C", "", "", "", ""⟩, none⟩] initState (by decide)).1,
   (runInserts_unique_ids_and_count
      [⟨1, "t", ⟨"A", "C", "", "", "", ""⟩, none⟩,
       ⟨2, "t", ⟨"B", "C", "", "", "", ""⟩, none⟩] initState (by decide)).2
     [⟨5, "t", ⟨"A", "C", "", "", "", ""⟩, none⟩,
      ⟨5, "t", ⟨"B", "C", "", "", "", ""⟩, none⟩] initState⟩

/-! ### C8: understanding-material update replaces -/

/-- C8: `POST /understanding/:articleId` replaces the stored entry for
the article wholesale: afterwards the entry is exactly the payload's
summary and mapped materials, so any material of the old entry that is
not among the payload's files is absent from the stored entry — in
contrast to Config's merge policy. -/
theorem understanding_update_replaces (st : State) (articleId : String)
    (summary : Option String) (files : List UploadFile) :
    objGet articleId (postUnderstanding articleId summary files st).1.understanding
      = some { summary := summary.getD ""
               materials := files.map (fun f => Material.mk f.originalname f.path f.size) }
    ∧ ∀ old m, objGet articleId st.understanding = some old →
        m ∈ old.materials →
        m ∉ files.map (fun f => Material.mk f.originalname f.path f.size) →
        ∀ e, objGet articleId
            (postUnderstanding articleId summary files st).1.understanding = some e →
          m ∉ e.materials := by
  have hset : objGet articleId (postUnderstanding articleId summary files st).1.understanding
      = some { summary := summary.getD ""
               materials := files.map (fun f => Material.mk f.originalname f.path f.size) } :=
    objGet_objSet_self articleId _ st.understanding
  refine ⟨hset, ?_⟩
  intro old m _ _ hnotin e he
  rw [hset] at he
  cases he
  exact hnotin

/-- C8 witness: replacing the entry for article "1" (one old material,
empty new upload list) leaves the old material absent from the stored
entry. -/
theorem understanding_update_replaces_witness :
    Material.mk "a" "u" 1 ∉ (UEntry.mk "s" [] : UEntry).materials
    ∧ objGet "1" (postUnderstanding "1" (some "s") []
        { initState with
          understanding := [("1", UEntry.mk "old" [Material.mk "a" "u" 1])] }).1.understanding
      = some (UEntry.mk "s" []) :=
  ⟨(understanding_update_replaces
      { initState with
        understanding := [("1", UEntry.mk "old" [Material.mk "a" "u" 1])] }
      "1" (some "s") []).2
      (UEntry.mk "old" [Material.mk "a" "u" 1]) (Material.mk "a" "u" 1)
      (by decide) (by decide) (by decide) (UEntry.mk "s" []) (by decide),
   (understanding_update_replaces
      { initState with
        understanding := [("1", UEntry.mk "old" [Material.mk "a" "u" 1])] }
      "1" (some "s") []).1⟩

/-! ### C9: responses never contain the password -/

/-- C9: the register, login and list-users responses never contain the
stored `password` field: each response body is built by the rest spread
`{ password: _, ...userWithoutPassword }`, whose key set is exactly
`id`, `name`, `email`, `createdAt`. -/
theorem responses_never_contain_password (st : State) (now : Nat)
    (c n e p : String) :
    (∀ u : User, objGet "password" (userWithoutPassword u) = none)
    ∧ (∀ fields st₂, postAuthRegister now c n e p st = (.okUser fields, st₂) →
        objGet "password" fields = none)
    ∧ (∀ fields, postAuthLogin e p st = .okUser fields →
        objGet "password" fields = none)
    ∧ (∀ fields ∈ getUsers st, objGet "password" fields = none) := by
  have hbase : ∀ u : User, objGet "password" (userWithoutPassword u) = none :=
    fun u => rfl
  refine ⟨hbase, ?_, ?_, ?_⟩
  · intro fields st₂ h
    by_cases h₁ : n = "" ∨ e = "" ∨ p = ""
    · simp [postAuthRegister, h₁] at h
    · by_cases h₂ : p.length < 6
      · simp [postAuthRegister, h₁, h₂] at h
      · by_cases h₃ : (jsFind (fun u => u.email == e) st.users).isSome
        · simp [postAuthRegister, h₁, h₂, h₃] at h
        · simp [postAuthRegister, h₁, h₂, h₃] at h
          rw [← h.1]
          exact hbase _
  · intro fields h
    by_cases h₁ : e = "" ∨ p = ""
    · simp [postAuthLogin, h₁] at h
    · rw [postAuthLogin, if_neg h₁] at h
      cases hf : jsFind (fun u => u.email == e && u.password == p) st.users with
      | none => rw [hf] at h; cases h
      | some u =>
        rw [hf] at h
        cases h
        exact hbase u
  · intro fields hf
    obtain ⟨u, _, hu⟩ := List.mem_map.mp hf
    rw [← hu]
    exact hbase u

/-- C9 witness: a successful registration's response body has no
`password` key. -/
theorem responses_never_contain_password_witness :
    objGet "password" (userWithoutPassword ⟨1, "A", "a@b", "secret1", "t"⟩) = none :=
  (responses_never_contain_password initState 1 "t" "A" "a@b" "secret1").2.1
    (userWithoutPassword ⟨1, "A", "a@b", "secret1", "t"⟩)
    { initState with users := [⟨1, "A", "a@b", "secret1", "t"⟩] }
    (by decide)

/-! ### C10: push subscribe idempotent on the endpoint -/

/-- C10: subscribing with an endpoint that some stored subscription
already has leaves the subscription collection unchanged — no duplicate
entry is appended — while the handler still responds with the same
success message. -/
theorem push_subscribe_idempotent (st : State) (endpoint keys : String)
    (h : ∃ s ∈ st.pushSubscriptions, s.endpoint = endpoint) :
    postPushSubscribe endpoint keys st = ("Subscribed successfully", st) := by
  obtain ⟨s, hs, he⟩ := h
  have hsome : (jsFind (fun s => s.endpoint == endpoint) st.pushSubscriptions).isSome :=
    jsFind_isSome_of_mem _ _ s hs (by simpa using he)
  simp [postPushSubscribe, hsome]

/-- C10 witness: re-subscribing the already-stored endpoint "e" changes
nothing and still succeeds. -/
theorem push_subscribe_idempotent_witness :
    postPushSubscribe "e" "k2" { initState with pushSubscriptions := [PushSub.mk "e" "k"] }
      = ("Subscribed successfully",
         { initState with pushSubscriptions := [PushSub.mk "e" "k"] }) :=
  push_subscribe_idempotent
    { initState with pushSubscriptions := [PushSub.mk "e" "k"] }
    "e" "k2" ⟨PushSub.mk "e" "k", by decide, rfl⟩

end Muk
